import Mathlib

/-!
Verification of the track-file ingestion engine of GottenGeography
(GPX / TCX / KML / CSV parsing, the generic XML watch-list state machine,
and the Global Track Store with its range bookkeeping).

The implementation module `gg/xmlfiles.py` is not shipped with this copy of
the repository; only its test suite (`tests/test_xmlfiles.py`) is.  All
definitions below are therefore modelled from the specification, with every
behaviour that the test suite pins down taken from the tests (the tests are
repository code and are authoritative where they conflict with the prose).
Floating point values are modelled by exact canonical decimals: the
engine only parses and stores decimal literals and compares them for
equality, it performs no float arithmetic.
-/

/-- An exact decimal number in canonical form: sign, mantissa and power of
ten divisor, with no trailing zero digits in the fraction and no negative
zero.  The engine only ever parses decimal literals and compares the
results for equality, so canonical decimals model its float values exactly:
two canonical decimals are structurally equal iff they denote the same
number. -/
structure DecNum where
  neg : Bool
  man : Nat
  exp : Nat
deriving DecidableEq, Repr

/-- Strip trailing zero digits of the fraction from a mantissa and
exponent pair. -/
def canonAux : Nat → Nat → Nat × Nat
  | man, 0 => (man, 0)
  | man, e + 1 => if man % 10 = 0 then canonAux (man / 10) e else (man, e + 1)

/-- Canonical decimal with the given sign, mantissa and exponent. -/
def DecNum.make (neg : Bool) (man exp : Nat) : DecNum :=
  ⟨if man = 0 then false else neg, (canonAux man exp).1, (canonAux man exp).2⟩

instance : OfScientific DecNum :=
  ⟨fun m b e => if b then DecNum.make false m e else DecNum.make false (m * 10 ^ e) 0⟩

instance : Neg DecNum :=
  ⟨fun d => ⟨if d.man = 0 then false else !d.neg, d.man, d.exp⟩⟩

instance (n : Nat) : OfNat DecNum n :=
  ⟨⟨false, n, 0⟩⟩

/-- The rational number a decimal denotes; the reference semantics of
DecNum, not used in any computation. -/
def DecNum.toRat (d : DecNum) : ℚ :=
  (if d.neg then -1 else 1) * (d.man : ℚ) / 10 ^ d.exp

/-- Modelled from the spec: a Coordinate is an immutable value of latitude,
longitude and elevation.  Elevation defaults to 0 when absent or
unparsable. -/
structure Coordinate where
  lat : DecNum
  lon : DecNum
  ele : DecNum
deriving DecidableEq, Repr

/-- Association-list lookup, first binding wins (maps built by
`alistInsert` never contain duplicate keys, mirroring a Python dict). -/
def alistGet {κ ν : Type} [DecidableEq κ] : List (κ × ν) → κ → Option ν
  | [], _ => none
  | (k1, v) :: t, k => if k1 = k then some v else alistGet t k

/-- Association-list insertion: replaces the binding in place when the key
exists, otherwise appends the new binding at the end, mirroring the update
and insertion-order behaviour of a Python dict. -/
def alistInsert {κ ν : Type} [DecidableEq κ] : List (κ × ν) → κ → ν → List (κ × ν)
  | [], k, v => [(k, v)]
  | (k1, v1) :: t, k, v => if k1 = k then (k, v) :: t else (k1, v1) :: alistInsert t k v

/-- Modelled from the spec: `dict.update` on timestamp maps; every binding
of the second map is written into the first, last-merged wins. -/
def alistUpdate {κ ν : Type} [DecidableEq κ] (m m2 : List (κ × ν)) : List (κ × ν) :=
  m2.foldl (fun a kv => alistInsert a kv.1 kv.2) m

/-- Numeric value of a list of decimal digit characters. -/
def digitsVal (cs : List Char) : Nat :=
  cs.foldl (fun a c => a * 10 + (c.toNat - 48)) 0

/-- True when the list is a nonempty run of decimal digits. -/
def allDigits (cs : List Char) : Bool :=
  !cs.isEmpty && cs.all Char.isDigit

/-- Split a character list at every occurrence of the separator. -/
def splitOnChar (sep : Char) : List Char → List (List Char)
  | [] => [[]]
  | c :: rest =>
    let r := splitOnChar sep rest
    if c = sep then [] :: r
    else
      match r with
      | [] => [[c]]
      | h :: t => (c :: h) :: t

/-- Leading and trailing whitespace stripped from a character list. -/
def strTrimList (cs : List Char) : List Char :=
  ((cs.dropWhile Char.isWhitespace).reverse.dropWhile Char.isWhitespace).reverse

/-- True when the string is empty or pure whitespace, the emptiness test
Python applies to stripped character data. -/
def isBlank (s : String) : Bool :=
  (strTrimList s.toList).isEmpty

/-- Comma-splitting of a trimmed line into its fields. -/
def splitComma (s : String) : List String :=
  (splitOnChar ',' (strTrimList s.toList)).map String.mk

/-- Mantissa and exponent of an unsigned decimal literal, either `digits`
or `digits.digits`. -/
def decimalCore (cs : List Char) : Option (Nat × Nat) :=
  match splitOnChar '.' cs with
  | [ip] => if allDigits ip then some (digitsVal ip, 0) else none
  | [ip, fp] =>
    if allDigits ip && allDigits fp then
      some (digitsVal ip * 10 ^ fp.length + digitsVal fp, fp.length)
    else none
  | _ => none

/-- Modelled from the spec: the float conversion the engine applies to
latitude, longitude and elevation text, as an exact decimal parse.  Returns
none exactly when the conversion would fail. -/
def parseDecimal (s : String) : Option DecNum :=
  match strTrimList s.toList with
  | '-' :: rest => (decimalCore rest).map (fun p => DecNum.make true p.1 p.2)
  | '+' :: rest => (decimalCore rest).map (fun p => DecNum.make false p.1 p.2)
  | cs => (decimalCore cs).map (fun p => DecNum.make false p.1 p.2)

/-- Modelled from the spec: integer conversion for CSV timestamps. -/
def parseNat (s : String) : Option Nat :=
  let cs := strTrimList s.toList
  if allDigits cs then some (digitsVal cs) else none

/-- Gregorian leap-year test. -/
def isLeapYear (y : Nat) : Bool :=
  y % 4 == 0 && (y % 100 != 0 || y % 400 == 0)

/-- Number of days in a month of a given year. -/
def daysInMonth (y m : Nat) : Nat :=
  if m = 2 then (if isLeapYear y then 29 else 28)
  else if m = 4 ∨ m = 6 ∨ m = 9 ∨ m = 11 then 30
  else 31

/-- Days from 1970-01-01 to the first day of year `y` (for `y ≥ 1970`). -/
def daysBeforeYear (y : Nat) : Nat :=
  (List.range (y - 1970)).foldl
    (fun a i => a + (if isLeapYear (1970 + i) then 366 else 365)) 0

/-- Days from the first day of year `y` to the first day of its month `m`. -/
def daysBeforeMonth (y m : Nat) : Nat :=
  (List.range (m - 1)).foldl (fun a i => a + daysInMonth y (i + 1)) 0

/-- Unix epoch seconds of a civil UTC date and time, none when any field is
out of range (the engine only ever sees post-1970 fixes). -/
def civilToEpoch (y mo da hh mi ss : Nat) : Option Nat :=
  if 1970 ≤ y ∧ 1 ≤ mo ∧ mo ≤ 12 ∧ 1 ≤ da ∧ da ≤ daysInMonth y mo
      ∧ hh < 24 ∧ mi < 60 ∧ ss < 60 then
    some ((daysBeforeYear y + daysBeforeMonth y mo + (da - 1)) * 86400
      + hh * 3600 + mi * 60 + ss)
  else none

/-- Modelled from the spec: parse of an ISO-8601 UTC timestamp of the form
YYYY-MM-DDTHH:MM:SS (anything after the seconds field, such as a trailing
Z, is ignored); none when malformed, which drops the record. -/
def parseISO8601 (s : String) : Option Nat :=
  match (strTrimList s.toList).take 19 with
  | [y1, y2, y3, y4, c1, m1, m2, c2, d1, d2, c3, h1, h2, c4, n1, n2, c5, s1, s2] =>
    if c1 = '-' ∧ c2 = '-' ∧ c3 = 'T' ∧ c4 = ':' ∧ c5 = ':'
        ∧ allDigits [y1, y2, y3, y4] ∧ allDigits [m1, m2] ∧ allDigits [d1, d2]
        ∧ allDigits [h1, h2] ∧ allDigits [n1, n2] ∧ allDigits [s1, s2] then
      civilToEpoch (digitsVal [y1, y2, y3, y4]) (digitsVal [m1, m2])
        (digitsVal [d1, d2]) (digitsVal [h1, h2]) (digitsVal [n1, n2])
        (digitsVal [s1, s2])
    else none
  | _ => none

/-- Whether the pattern list occurs at the head of the other list. -/
def listStarts : List Char → List Char → Bool
  | [], _ => true
  | _ :: _, [] => false
  | p :: ps, c :: cs => p = c && listStarts ps cs

/-- Whether the pattern list occurs contiguously anywhere in the list. -/
def listHasInfix (pat : List Char) : List Char → Bool
  | [] => listStarts pat []
  | c :: cs => listStarts pat (c :: cs) || listHasInfix pat cs

/-- Case-sensitive substring test on strings. -/
def strHasSub (s pat : String) : Bool :=
  listHasInfix pat.toList s.toList

/-- Event stream of the underlying SAX-style XML tokenizer. -/
inductive XMLEvent where
  | startTag (name : String) (attrs : List (String × String))
  | charData (data : String)
  | endTag (name : String)
deriving DecidableEq, Repr

/-- Modelled from the spec: the single shared error type of the engine;
unsupported extension, wrong root element, tokenizer syntax failure and the
no-points condition all surface as a FormatError. -/
structure FormatError where
  msg : String
deriving DecidableEq, Repr

/-- Explicit enum of the generic parser states, as the spec directs:
SeekingRoot before the root tag is checked, BetweenElements outside any
watched element, InsideWatched while one is being tracked. -/
inductive ParserMode where
  | seekingRoot
  | betweenElements
  | insideWatched
deriving DecidableEq, Repr

/-- Configuration of the generic XML parser: root tag, watch-list and the
two dialect callbacks, acting on an accumulator of type α. -/
structure XMLParserConfig (α : Type) where
  rootname : String
  watchlist : List String
  call_start : String → List (String × String) → α → α
  call_end : String → List (String × String) → α → α

/-- Transient state of the generic XML parser: the mode, the watched tag
being tracked, the innermost element receiving character data, the
accumulated text mapping, and the dialect accumulator. -/
structure PState (α : Type) where
  mode : ParserMode
  tracking : Option String
  element : Option String
  state : List (String × String)
  acc : α
deriving DecidableEq, Repr

/-- Modelled from the spec: appending character data to the field of the
innermost element, `state[element] = state.get(element, empty) + data`. -/
def appendField (st : List (String × String)) (e : String) (d : String) :
    List (String × String) :=
  alistInsert st e (((alistGet st e).getD "") ++ d)

/-- Modelled from the spec: one transition of the generic XML state
machine.  In SeekingRoot a start tag other than the root is a fatal format
error.  In BetweenElements a watched start tag invokes call_start, sets
tracking and element to the tag and initialises the text state from the
attribute mapping (as pinned by test_xmlsimpleparser_element_start_watching;
this is how GPX latitude and longitude attributes reach the end callback),
while other tags are ignored.  InsideWatched start tags only move element to
the innermost tag; character data that is not pure whitespace is appended to
the field of the current element; the end tag matching the tracked name
hands the state to call_end and resets tracking, element and state, and
other end tags are ignored. -/
def stepEvent {α : Type} (cfg : XMLParserConfig α) (ps : PState α) :
    XMLEvent → Except FormatError (PState α)
  | .startTag name attrs =>
    match ps.mode with
    | .seekingRoot =>
      if name = cfg.rootname then .ok { ps with mode := .betweenElements }
      else .error ⟨"unexpected root element"⟩
    | .betweenElements =>
      if name ∈ cfg.watchlist then
        .ok { mode := .insideWatched, tracking := some name, element := some name,
              state := attrs, acc := cfg.call_start name attrs ps.acc }
      else .ok ps
    | .insideWatched => .ok { ps with element := some name }
  | .charData data =>
    match ps.mode with
    | .insideWatched =>
      if isBlank data then .ok ps
      else
        match ps.element with
        | some e => .ok { ps with state := appendField ps.state e data }
        | none => .ok ps
    | _ => .ok ps
  | .endTag name =>
    match ps.mode with
    | .insideWatched =>
      if some name = ps.tracking then
        .ok { mode := .betweenElements, tracking := none, element := none,
              state := [], acc := cfg.call_end name ps.state ps.acc }
      else .ok ps
    | _ => .ok ps

/-- Run the state machine over a whole event stream, stopping at the first
fatal error. -/
def runEvents {α : Type} (cfg : XMLParserConfig α) :
    PState α → List XMLEvent → Except FormatError (PState α)
  | ps, [] => .ok ps
  | ps, e :: rest =>
    match stepEvent cfg ps e with
    | .ok ps1 => runEvents cfg ps1 rest
    | .error err => .error err

/-- Fresh parser state over a dialect accumulator. -/
def initPState {α : Type} (a : α) : PState α :=
  ⟨.seekingRoot, none, none, [], a⟩

/-- Modelled from the spec: the whole-file entry point of the generic XML
parser.  A tokenizer-level syntax failure is caught and re-raised as a
single FormatError wrapping the original diagnostic; otherwise the event
stream is driven through the state machine and the dialect accumulator is
returned. -/
def parseXML {α : Type} (cfg : XMLParserConfig α)
    (tok : Except String (List XMLEvent)) (a : α) : Except FormatError α :=
  match tok with
  | .error diag => .error ⟨"could not parse file: " ++ diag⟩
  | .ok evs =>
    match runEvents cfg (initPState a) evs with
    | .ok ps => .ok ps.acc
    | .error err => .error err

/-- Timestamp-indexed timeline of coordinates, insertion ordered. -/
abbrev TrackMap := List (Nat × Coordinate)

/-- Keys of a timeline, in storage order. -/
def mapKeys (m : TrackMap) : List Nat := m.map Prod.fst

/-- Elevation with the default: 0 when the field is absent or its text does
not parse. -/
def parseEle (o : Option String) : DecNum :=
  (o.bind parseDecimal).getD 0

/-- Modelled from the spec: the GPX end-of-record callback.  Latitude and
longitude come from attributes on the watched trkpt element, elevation and
time from nested leaf text; a record without parseable latitude, longitude
or timestamp is silently dropped, elevation failures default to 0. -/
def gpxEnd (_tag : String) (st : List (String × String)) (acc : TrackMap) : TrackMap :=
  match (alistGet st "lat").bind parseDecimal, (alistGet st "lon").bind parseDecimal,
      (alistGet st "time").bind parseISO8601 with
  | some lat, some lon, some t => alistInsert acc t ⟨lat, lon, parseEle (alistGet st "ele")⟩
  | _, _, _ => acc

/-- GPX dialect configuration: root gpx, watching trkpt records. -/
def gpxConfig : XMLParserConfig TrackMap :=
  ⟨"gpx", ["trkpt"], fun _ _ a => a, gpxEnd⟩

/-- Modelled from the spec: the TCX end-of-record callback, reading the
nested Position/LatitudeDegrees, Position/LongitudeDegrees, AltitudeMeters
and Time leaves with the same record-completion contract as GPX. -/
def tcxEnd (_tag : String) (st : List (String × String)) (acc : TrackMap) : TrackMap :=
  match (alistGet st "LatitudeDegrees").bind parseDecimal,
      (alistGet st "LongitudeDegrees").bind parseDecimal,
      (alistGet st "Time").bind parseISO8601 with
  | some lat, some lon, some t =>
    alistInsert acc t ⟨lat, lon, parseEle (alistGet st "AltitudeMeters")⟩
  | _, _, _ => acc

/-- TCX dialect configuration: root TrainingCenterDatabase, watching
Trackpoint records. -/
def tcxConfig : XMLParserConfig TrackMap :=
  ⟨"TrainingCenterDatabase", ["Trackpoint"], fun _ _ a => a, tcxEnd⟩

/-- Modelled from the spec: split of the single KML coordinates payload of
the form lon,lat,ele (the elevation field may be missing or unparsable, in
which case it defaults to 0); none when the required fields fail. -/
def splitCoordinates (c : String) : Option (DecNum × DecNum × DecNum) :=
  match splitComma c with
  | [lon, lat] =>
    match parseDecimal lon, parseDecimal lat with
    | some lo, some la => some (lo, la, 0)
    | _, _ => none
  | [lon, lat, ele] =>
    match parseDecimal lon, parseDecimal lat with
    | some lo, some la => some (lo, la, (parseDecimal ele).getD 0)
    | _, _ => none
  | _ => none

/-- Modelled from the spec: the KML end-of-record callback.  The when and
coordinates leaves are paired by their shared enclosing Placemark scope, in
whatever document order they appeared; a record lacking a valid pairing is
dropped. -/
def kmlEnd (_tag : String) (st : List (String × String)) (acc : TrackMap) : TrackMap :=
  match alistGet st "when", alistGet st "coordinates" with
  | some w, some c =>
    match parseISO8601 w, splitCoordinates c with
    | some t, some (lo, la, el) => alistInsert acc t ⟨la, lo, el⟩
    | _, _ => acc
  | _, _ => acc

/-- KML dialect configuration: root kml, watching Placemark records. -/
def kmlConfig : XMLParserConfig TrackMap :=
  ⟨"kml", ["Placemark"], fun _ _ a => a, kmlEnd⟩

/-- Modelled from the spec: one CSV row holds timestamp, latitude and
longitude, with an optional elevation column defaulting to 0 when absent or
unparsable; a row with the wrong column count or unparsable required fields
yields none and is skipped. -/
def parseRow (line : String) : Option (Nat × Coordinate) :=
  match splitComma line with
  | [t, lat, lon] =>
    match parseNat t, parseDecimal lat, parseDecimal lon with
    | some ts, some la, some lo => some (ts, ⟨la, lo, 0⟩)
    | _, _, _ => none
  | [t, lat, lon, ele] =>
    match parseNat t, parseDecimal lat, parseDecimal lon with
    | some ts, some la, some lo => some (ts, ⟨la, lo, (parseDecimal ele).getD 0⟩)
    | _, _, _ => none
  | _ => none

/-- Fold one CSV line into the timeline being built, skipping bad rows. -/
def csvInsertRow (m : TrackMap) (line : String) : TrackMap :=
  match parseRow line with
  | some (t, c) => alistInsert m t c
  | none => m

/-- Modelled from the spec: the tolerant line-oriented CSV reader;
structurally invalid rows are skipped individually, never fatal. -/
def parseCSV (lines : List String) : TrackMap :=
  lines.foldl csvInsertRow []

deriving instance DecidableEq for Except

/-- Raw content of an input file: either a tokenized XML stream (or the
tokenizer diagnostic when it failed) or CSV lines. -/
inductive FileContent where
  | xml (tok : Except String (List XMLEvent))
  | csv (lines : List String)
deriving DecidableEq, Repr

/-- An input file: its path name plus its already-read content. -/
structure InputFile where
  name : String
  content : FileContent
deriving DecidableEq, Repr

/-- Extension of a file name: the component after the last dot. -/
def extOf (name : String) : String :=
  String.mk ((splitOnChar '.' name.toList).getLastD [])

/-- Modelled from the spec: the pure mapping from extension to XML dialect
adapter; none for extensions with no XML adapter. -/
def xmlConfigFor (ext : String) : Option (XMLParserConfig TrackMap) :=
  if ext = "gpx" then some gpxConfig
  else if ext = "tcx" then some tcxConfig
  else if ext = "kml" then some kmlConfig
  else none

/-- Modelled from the spec: the format-detecting dispatch.  The extension
selects the adapter; an unsupported extension is a FormatError before
anything else happens. -/
def parseFile (f : InputFile) : Except FormatError TrackMap :=
  match f.content with
  | .xml tok =>
    match xmlConfigFor (extOf f.name) with
    | some cfg => parseXML cfg tok []
    | none => .error ⟨"unsupported format"⟩
  | .csv lines =>
    if extOf f.name = "csv" then .ok (parseCSV lines)
    else .error ⟨"unsupported format"⟩

/-- Modelled from the spec: one loaded file owns its file name and its own
timeline of fixes. -/
structure TrackFile where
  filename : String
  tracks : TrackMap
deriving DecidableEq, Repr

/-- Modelled from the spec: TrackFile construction.  The file is parsed
completely first; a file yielding zero usable records raises the FormatError
whose message the test suite pins as No points found (with a capital N). -/
def trackFileNew (f : InputFile) : Except FormatError TrackFile :=
  match parseFile f with
  | .error e => .error e
  | .ok tks => if tks = [] then .error ⟨"No points found"⟩ else .ok ⟨f.name, tks⟩

/-- Modelled from the spec: the Global Track Store; the registry of live
TrackFiles, the merged timeline over all of them, and the cached range,
which is either empty or the two-element list of min and max timestamp. -/
structure GlobalStore where
  instances : List TrackFile
  points : TrackMap
  range : List Nat
deriving DecidableEq, Repr

/-- The store at program start: no files, no points, empty range. -/
def emptyStore : GlobalStore := ⟨[], [], []⟩

/-- Minimum of a list of timestamps, 0 on the empty list (never consulted
there: the range is only recomputed from a nonempty store). -/
def listMin : List Nat → Nat
  | [] => 0
  | a :: t => t.foldl min a

/-- Maximum of a list of timestamps, 0 on the empty list. -/
def listMax : List Nat → Nat
  | [] => 0
  | a :: t => t.foldl max a

/-- Modelled from the spec and test_trackfile_update_range: the range
recomputation.  When live instances exist the range is recomputed in full
from the merged points; otherwise it is set empty. -/
def updateRange (st : GlobalStore) : GlobalStore :=
  if st.instances = [] then { st with range := [] }
  else { st with range := [listMin (mapKeys st.points), listMax (mapKeys st.points)] }

/-- Map-view commands emitted on a successful multi-point load. -/
inductive ViewAction where
  | realize
  | setZoomLevel
  | ensureVisible
deriving DecidableEq, Repr

/-- Modelled from the spec and test_trackfile_load_from_file: loading a
file.  A failed construction leaves the store untouched and reports the
error.  On success the new timeline is merged, the file is registered, and
only when it holds more than one point does the map view update and the
range recomputation run (test_trackfile_load_from_file_no_tracks). -/
def loadFromFile (st : GlobalStore) (f : InputFile) :
    GlobalStore × List ViewAction × Option FormatError :=
  match trackFileNew f with
  | .error e => (st, [], some e)
  | .ok tf =>
    let st1 : GlobalStore :=
      { instances := st.instances ++ [tf],
        points := alistUpdate st.points tf.tracks,
        range := st.range }
    if 1 < tf.tracks.length then
      (updateRange st1, [.realize, .setZoomLevel, .ensureVisible], none)
    else (st1, [], none)

/-- Merged timeline over a list of live files, in registration order. -/
def unionTracks (l : List TrackFile) : TrackMap :=
  l.foldl (fun m tf => alistUpdate m tf.tracks) []

/-- Modelled from the spec and test_trackfile_destroy: destroying a file
deregisters it, then rebuilds the merged points by re-merging every still
live file (rather than blind subtraction), then recomputes the range. -/
def destroyFile (st : GlobalStore) (name : String) : GlobalStore :=
  updateRange
    { instances := st.instances.filter (fun tf => tf.filename != name),
      points := unionTracks (st.instances.filter (fun tf => tf.filename != name)),
      range := st.range }

/-- Modelled from the spec and test_trackfile_clear_all: destroy every live
file in turn, then clear the merged points. -/
def clearAll (st : GlobalStore) : GlobalStore :=
  { st.instances.foldl (fun s tf => destroyFile s tf.filename) st with points := [] }

/-- Store states reachable from startup through the three mutations of the
Global Track Store: successful loads, destroys and clear-alls. -/
inductive Reachable : GlobalStore → Prop where
  | init : Reachable emptyStore
  | load (st : GlobalStore) (f : InputFile) (h : Reachable st)
      (hok : (loadFromFile st f).2.2 = none) : Reachable (loadFromFile st f).1
  | remove (st : GlobalStore) (n : String) (h : Reachable st) :
      Reachable (destroyFile st n)
  | clear (st : GlobalStore) (h : Reachable st) : Reachable (clearAll st)

/-- The range invariant of the spec, phrased without reference to how the
range is computed: an empty range means an empty store, and a two-element
range consists of a genuine minimum and maximum of the stored keys. -/
def rangeSpec (st : GlobalStore) : Prop :=
  match st.range with
  | [] => st.points = []
  | [a, b] => st.points ≠ [] ∧ a ∈ mapKeys st.points ∧ b ∈ mapKeys st.points ∧
      ∀ k ∈ mapKeys st.points, a ≤ k ∧ k ≤ b
  | _ => False

/-- Internal coherence of a store state: the merged points are exactly the
union over live files, every live file owns at least one fix, and a store
with no live files has an empty range. -/
structure StoreInv (st : GlobalStore) : Prop where
  pointsEq : st.points = unionTracks st.instances
  tracksNe : ∀ tf ∈ st.instances, tf.tracks ≠ []
  emptyRange : st.instances = [] → st.range = []

/-- One trkpt record of a GPX document, as the four text payloads it
carries: latitude and longitude attributes, elevation and time leaves. -/
structure GpxRec where
  lat : String
  lon : String
  ele : String
  time : String
deriving DecidableEq, Repr

/-- Event stream of one GPX trkpt record: latitude and longitude are
attributes on the watched element, elevation and time nested leaves. -/
def gpxTrkptEvents (r : GpxRec) : List XMLEvent :=
  [.startTag "trkpt" [("lat", r.lat), ("lon", r.lon)],
   .startTag "ele" [], .charData r.ele, .endTag "ele",
   .startTag "time" [], .charData r.time, .endTag "time",
   .endTag "trkpt"]

/-- Body of a GPX document: the records in order, then the closing root. -/
def gpxBodyEvents (recs : List GpxRec) : List XMLEvent :=
  recs.foldr (fun r a => gpxTrkptEvents r ++ a) [.endTag "gpx"]

/-- Event stream of a whole GPX document. -/
def gpxDocEvents (recs : List GpxRec) : List XMLEvent :=
  .startTag "gpx" [] :: gpxBodyEvents recs

/-- A GPX record is usable when its latitude, longitude and timestamp all
parse; elevation plays no part in record completion. -/
def gpxRecValid (r : GpxRec) : Bool :=
  (parseDecimal r.lat).isSome && (parseDecimal r.lon).isSome
    && (parseISO8601 r.time).isSome

/-- The accumulated text state the parser holds at the closing trkpt tag of
one GPX record: the attributes, then the elevation and time texts when they
are not pure whitespace. -/
def gpxRecordState (r : GpxRec) : List (String × String) :=
  let s1 := [("lat", r.lat), ("lon", r.lon)]
  let s2 := if isBlank r.ele then s1 else s1 ++ [("ele", r.ele)]
  if isBlank r.time then s2 else s2 ++ [("time", r.time)]

/-- Effect of one GPX record on the timeline being built. -/
def gpxRecEffect (r : GpxRec) (acc : TrackMap) : TrackMap :=
  gpxEnd "trkpt" (gpxRecordState r) acc

/-- Event stream of one KML when leaf. -/
def kmlWhenEvents (w : String) : List XMLEvent :=
  [.startTag "when" [], .charData w, .endTag "when"]

/-- Event stream of one KML coordinates leaf. -/
def kmlCoordEvents (c : String) : List XMLEvent :=
  [.startTag "coordinates" [], .charData c, .endTag "coordinates"]

/-- Event stream of one KML Placemark record; the disordered flag swaps the
document order of the two sibling leaves. -/
def kmlPlacemarkEvents (w c : String) (disordered : Bool) : List XMLEvent :=
  .startTag "Placemark" [] ::
    ((if disordered then kmlCoordEvents c ++ kmlWhenEvents w
      else kmlWhenEvents w ++ kmlCoordEvents c) ++ [.endTag "Placemark"])

/-- Body of a KML document: the records in order, then the closing root. -/
def kmlBodyEvents (recs : List (String × String)) (disordered : Bool) : List XMLEvent :=
  recs.foldr (fun r a => kmlPlacemarkEvents r.1 r.2 disordered ++ a) [.endTag "kml"]

/-- Event stream of a whole KML document, each record a pair of when text
and coordinates text. -/
def kmlDocEvents (recs : List (String × String)) (disordered : Bool) : List XMLEvent :=
  .startTag "kml" [] :: kmlBodyEvents recs disordered

/-- The accumulated text state at the closing Placemark tag of one KML
record, for either document order of the leaves: a mapping holding the when
and coordinates texts that were not pure whitespace. -/
def kmlRecordState (w c : String) : List (String × String) :=
  let s1 := if isBlank w then [] else [("when", w)]
  if isBlank c then s1 else s1 ++ [("coordinates", c)]

/-- Effect of one KML record on the timeline being built. -/
def kmlRecEffect (w c : String) (acc : TrackMap) : TrackMap :=
  kmlEnd "Placemark" (kmlRecordState w c) acc

/-- Event stream of one TCX Trackpoint record with its nested Position. -/
def tcxTrackpointEvents (lat lon ele time : String) : List XMLEvent :=
  [.startTag "Trackpoint" [],
   .startTag "Time" [], .charData time, .endTag "Time",
   .startTag "Position" [],
   .startTag "LatitudeDegrees" [], .charData lat, .endTag "LatitudeDegrees",
   .startTag "LongitudeDegrees" [], .charData lon, .endTag "LongitudeDegrees",
   .endTag "Position",
   .startTag "AltitudeMeters" [], .charData ele, .endTag "AltitudeMeters",
   .endTag "Trackpoint"]

/-- Modelled from the spec: the minimal three-point GPX fixture, carrying
the ground-truth timestamps and coordinate triples of the test suite. -/
def minimalGpxRecs : List GpxRec :=
  [⟨"53.52263", "-113.448979", "671.666", "2010-10-16T20:09:11Z"⟩,
   ⟨"53.522731", "-113.448985", "671.092", "2010-10-16T20:09:13Z"⟩,
   ⟨"53.52283", "-113.448985", "671.307", "2010-10-16T20:09:15Z"⟩]

/-- The minimal GPX fixture as an input file. -/
def minimalGpxFile : InputFile :=
  ⟨"minimal.gpx", .xml (.ok (gpxDocEvents minimalGpxRecs))⟩

/-- Modelled from the spec: a well-formed two-point TCX file carrying the
first two ground-truth fixes of the TCX fixture. -/
def sampleTcxFile : InputFile :=
  ⟨"sample.tcx", .xml (.ok
    (.startTag "TrainingCenterDatabase" [] ::
      (tcxTrackpointEvents "52.148514" "4.500887" "-91.731" "2009-02-21T12:57:43Z" ++
       tcxTrackpointEvents "52.148326" "4.500603" "-90.795" "2009-02-21T12:57:47Z" ++
       [.endTag "TrainingCenterDatabase"])))⟩

/-- Modelled from the spec: a well-formed two-point KML file carrying the
first two ground-truth fixes of the KML fixture. -/
def sampleKmlRecs : List (String × String) :=
  [("2012-05-04T22:08:51Z", "3.2617136,39.6012887,185.0"),
   ("2012-05-04T22:23:52Z", "3.2617136,39.6012887,185.0")]

/-- The sample KML fixture as an input file, canonically ordered. -/
def sampleKmlFile : InputFile :=
  ⟨"normal.kml", .xml (.ok (kmlDocEvents sampleKmlRecs false))⟩

/-- Modelled from the spec: the minimal altitude-free CSV fixture. -/
def minimalCsvFile : InputFile :=
  ⟨"minimal.csv", .csv
    ["1339792700,49.885583,-97.151421",
     "1339792701,49.885524,-97.151472",
     "1339792702,49.885576,-97.151397"]⟩

/-- A GPX file holding exactly one fix. -/
def onePtGpxFile : InputFile :=
  ⟨"one.gpx", .xml (.ok (gpxDocEvents [⟨"1.5", "2.5", "3", "2010-10-16T20:09:11Z"⟩]))⟩

/-- A syntactically well-formed GPX file with no trkpt records at all. -/
def emptyGpxFile : InputFile :=
  ⟨"empty.gpx", .xml (.ok [.startTag "gpx" [], .endTag "gpx"])⟩

/-- A CSV file holding two fixes. -/
def twoPtCsvFile : InputFile :=
  ⟨"two.csv", .csv ["100,1.0,2.0", "200,3.0,4.0"]⟩

/-- Ground truth of the minimal GPX fixture: the three timestamps and
exact coordinate triples of the test suite. -/
def minimalGpxTracks : TrackMap :=
  [(1287259751, ⟨53.52263, -113.448979, 671.666⟩),
   (1287259753, ⟨53.522731, -113.448985, 671.092⟩),
   (1287259755, ⟨53.52283, -113.448985, 671.307⟩)]

/-- Ground truth of the two-point TCX fixture. -/
def sampleTcxTracks : TrackMap :=
  [(1235221063, ⟨52.148514, 4.500887, -91.731⟩),
   (1235221067, ⟨52.148326, 4.500603, -90.795⟩)]

/-- Ground truth of the two-point KML fixture. -/
def sampleKmlTracks : TrackMap :=
  [(1336169331, ⟨39.6012887, 3.2617136, 185⟩),
   (1336170232, ⟨39.6012887, 3.2617136, 185⟩)]

/-- Ground truth of the minimal CSV fixture; no altitude column, so every
elevation is 0. -/
def minimalCsvTracks : TrackMap :=
  [(1339792700, ⟨49.885583, -97.151421, 0⟩),
   (1339792701, ⟨49.885524, -97.151472, 0⟩),
   (1339792702, ⟨49.885576, -97.151397, 0⟩)]

/-- The single fix of the one-point GPX file. -/
def onePtTracks : TrackMap :=
  [(1287259751, ⟨1.5, 2.5, 3⟩)]

/-- The two fixes of the two-point CSV file. -/
def twoCsvTracks : TrackMap :=
  [(100, ⟨1, 2, 0⟩), (200, ⟨3, 4, 0⟩)]

/-- A recording instantiation of the generic parser callbacks, used to
exercise the callback contract on concrete runs. -/
def recConfig : XMLParserConfig (List String) :=
  ⟨"root", ["foo"],
   fun t _ a => a ++ ["opened:" ++ t],
   fun t st a => a ++ ["closed:" ++ t] ++ st.map (fun p => p.1 ++ "=" ++ p.2)⟩

/-- A parser state between elements, over the recording callbacks. -/
def demoBetweenState : PState (List String) :=
  ⟨.betweenElements, none, none, [], []⟩

/-- A parser state inside a watched foo element currently receiving
character data for a nested neon element, over the recording callbacks. -/
def demoInsideState : PState (List String) :=
  ⟨.insideWatched, some "foo", some "neon", [], []⟩

/-- Modelled from the spec: Polygon.append_point as exercised by
test_polygon_append_point_invalid_elevation; the elevation text is float
converted with fallback 0. -/
def appendPoint (lat lon : DecNum) (ele : String) : Coordinate :=
  ⟨lat, lon, (parseDecimal ele).getD 0⟩

/-! ### Association list lemmas -/

theorem alistInsert_ne_nil {κ ν : Type} [DecidableEq κ] (m : List (κ × ν)) (k : κ) (v : ν) :
    alistInsert m k v ≠ [] := by
  cases m with
  | nil => simp [alistInsert]
  | cons h t =>
    simp only [alistInsert]
    split <;> simp

theorem alistGet_insert_self {κ ν : Type} [DecidableEq κ] (m : List (κ × ν)) (k : κ) (v : ν) :
    alistGet (alistInsert m k v) k = some v := by
  induction m with
  | nil => simp [alistInsert, alistGet]
  | cons h t ih =>
    simp only [alistInsert]
    by_cases hk : h.1 = k
    · simp [hk, alistGet]
    · simpa [alistGet, hk] using ih

theorem mem_keys_alistInsert (m : TrackMap) (k : Nat) (v : Coordinate) (a : Nat) :
    a ∈ mapKeys (alistInsert m k v) ↔ a = k ∨ a ∈ mapKeys m := by
  induction m with
  | nil => simp [alistInsert, mapKeys]
  | cons h t ih =>
    by_cases hk : h.1 = k
    · subst hk
      have h1 : alistInsert (h :: t) h.1 v = (h.1, v) :: t := by
        simp [alistInsert]
      rw [h1]
      simp only [mapKeys, List.map_cons, List.mem_cons]
      tauto
    · have h1 : alistInsert (h :: t) k v = h :: alistInsert t k v := by
        simp [alistInsert, hk]
      rw [h1]
      simp only [mapKeys, List.map_cons, List.mem_cons] at ih ⊢
      rw [ih]
      tauto

theorem alistUpdate_ne_nil_left {κ ν : Type} [DecidableEq κ] (m2 : List (κ × ν)) :
    ∀ m : List (κ × ν), m ≠ [] → alistUpdate m m2 ≠ [] := by
  induction m2 with
  | nil => intro m hm; simpa [alistUpdate] using hm
  | cons kv t ih =>
    intro m _
    simp only [alistUpdate, List.foldl_cons]
    exact ih (alistInsert m kv.1 kv.2) (alistInsert_ne_nil m kv.1 kv.2)

theorem alistUpdate_ne_nil_right {κ ν : Type} [DecidableEq κ] (m m2 : List (κ × ν))
    (h : m2 ≠ []) : alistUpdate m m2 ≠ [] := by
  cases m2 with
  | nil => exact absurd rfl h
  | cons kv t =>
    simp only [alistUpdate, List.foldl_cons]
    exact alistUpdate_ne_nil_left t _ (alistInsert_ne_nil m kv.1 kv.2)

theorem mem_keys_alistUpdate (m2 m : TrackMap) (a : Nat) :
    a ∈ mapKeys (alistUpdate m m2) ↔ a ∈ mapKeys m ∨ a ∈ mapKeys m2 := by
  induction m2 generalizing m with
  | nil => simp [alistUpdate, mapKeys]
  | cons kv t ih =>
    have h1 : alistUpdate m (kv :: t) = alistUpdate (alistInsert m kv.1 kv.2) t := rfl
    rw [h1, ih, mem_keys_alistInsert]
    simp only [mapKeys, List.map_cons, List.mem_cons]
    tauto

theorem unionTracks_append_single (l : List TrackFile) (tf : TrackFile) :
    unionTracks (l ++ [tf]) = alistUpdate (unionTracks l) tf.tracks := by
  simp [unionTracks, List.foldl_append]

theorem foldl_update_ne_nil (l : List TrackFile) :
    ∀ m : TrackMap, m ≠ [] → l.foldl (fun m tf => alistUpdate m tf.tracks) m ≠ [] := by
  induction l with
  | nil => intro m hm; simpa using hm
  | cons tf t ih =>
    intro m hm
    simp only [List.foldl_cons]
    exact ih _ (alistUpdate_ne_nil_left tf.tracks m hm)

theorem unionTracks_ne_nil (l : List TrackFile) (hl : l ≠ [])
    (h : ∀ tf ∈ l, tf.tracks ≠ []) : unionTracks l ≠ [] := by
  cases l with
  | nil => exact absurd rfl hl
  | cons tf t =>
    simp only [unionTracks, List.foldl_cons]
    refine foldl_update_ne_nil t _ ?_
    exact alistUpdate_ne_nil_right [] tf.tracks (h tf (List.mem_cons_self tf t))

theorem mem_keys_foldl_update (l : List TrackFile) :
    ∀ (m : TrackMap) (a : Nat),
      a ∈ mapKeys (l.foldl (fun m tf => alistUpdate m tf.tracks) m) ↔
        a ∈ mapKeys m ∨ ∃ tf ∈ l, a ∈ mapKeys tf.tracks := by
  induction l with
  | nil => simp
  | cons tf t ih =>
    intro m a
    simp only [List.foldl_cons, ih, mem_keys_alistUpdate, List.mem_cons]
    constructor
    · rintro ((h | h) | ⟨g, hg, hk⟩)
      · exact Or.inl h
      · exact Or.inr ⟨tf, Or.inl rfl, h⟩
      · exact Or.inr ⟨g, Or.inr hg, hk⟩
    · rintro (h | ⟨g, (rfl | hg), hk⟩)
      · exact Or.inl (Or.inl h)
      · exact Or.inl (Or.inr hk)
      · exact Or.inr ⟨g, hg, hk⟩

theorem mem_keys_unionTracks (l : List TrackFile) (a : Nat) :
    a ∈ mapKeys (unionTracks l) ↔ ∃ tf ∈ l, a ∈ mapKeys tf.tracks := by
  simpa [unionTracks, mapKeys] using mem_keys_foldl_update l [] a

/-! ### Minimum and maximum of key lists -/

theorem foldl_min_le (t : List Nat) :
    ∀ a : Nat, ∀ x ∈ a :: t, t.foldl min a ≤ x := by
  induction t with
  | nil => intro a x hx; simp at hx; simp [hx]
  | cons b t ih =>
    intro a x hx
    simp only [List.foldl_cons]
    have hh : t.foldl min (min a b) ≤ min a b :=
      ih (min a b) (min a b) (List.mem_cons_self _ _)
    rcases List.mem_cons.mp hx with rfl | hx2
    · exact le_trans hh (min_le_left _ _)
    · rcases List.mem_cons.mp hx2 with rfl | hx3
      · exact le_trans hh (min_le_right _ _)
      · exact ih (min a b) x (List.mem_cons_of_mem _ hx3)

theorem foldl_min_mem (t : List Nat) :
    ∀ a : Nat, t.foldl min a ∈ a :: t := by
  induction t with
  | nil => intro a; simp
  | cons b t ih =>
    intro a
    simp only [List.foldl_cons]
    rcases min_choice a b with h | h
    · rcases List.mem_cons.mp (ih (min a b)) with hm | hm
      · rw [hm, h]; exact List.mem_cons_self _ _
      · exact List.mem_cons_of_mem _ (List.mem_cons_of_mem _ hm)
    · rcases List.mem_cons.mp (ih (min a b)) with hm | hm
      · rw [hm, h]; exact List.mem_cons_of_mem _ (List.mem_cons_self _ _)
      · exact List.mem_cons_of_mem _ (List.mem_cons_of_mem _ hm)

theorem foldl_le_max (t : List Nat) :
    ∀ a : Nat, ∀ x ∈ a :: t, x ≤ t.foldl max a := by
  induction t with
  | nil => intro a x hx; simp at hx; simp [hx]
  | cons b t ih =>
    intro a x hx
    simp only [List.foldl_cons]
    have hh : max a b ≤ t.foldl max (max a b) :=
      ih (max a b) (max a b) (List.mem_cons_self _ _)
    rcases List.mem_cons.mp hx with rfl | hx2
    · exact le_trans (le_max_left _ _) hh
    · rcases List.mem_cons.mp hx2 with rfl | hx3
      · exact le_trans (le_max_right _ _) hh
      · exact ih (max a b) x (List.mem_cons_of_mem _ hx3)

theorem foldl_max_mem (t : List Nat) :
    ∀ a : Nat, t.foldl max a ∈ a :: t := by
  induction t with
  | nil => intro a; simp
  | cons b t ih =>
    intro a
    simp only [List.foldl_cons]
    rcases max_choice a b with h | h
    · rcases List.mem_cons.mp (ih (max a b)) with hm | hm
      · rw [hm, h]; exact List.mem_cons_self _ _
      · exact List.mem_cons_of_mem _ (List.mem_cons_of_mem _ hm)
    · rcases List.mem_cons.mp (ih (max a b)) with hm | hm
      · rw [hm, h]; exact List.mem_cons_of_mem _ (List.mem_cons_self _ _)
      · exact List.mem_cons_of_mem _ (List.mem_cons_of_mem _ hm)

theorem listMin_mem (l : List Nat) (h : l ≠ []) : listMin l ∈ l := by
  cases l with
  | nil => exact absurd rfl h
  | cons a t => exact foldl_min_mem t a

theorem listMin_le (l : List Nat) (x : Nat) (hx : x ∈ l) : listMin l ≤ x := by
  cases l with
  | nil => simp at hx
  | cons a t => exact foldl_min_le t a x hx

theorem listMax_mem (l : List Nat) (h : l ≠ []) : listMax l ∈ l := by
  cases l with
  | nil => exact absurd rfl h
  | cons a t => exact foldl_max_mem t a

theorem le_listMax (l : List Nat) (x : Nat) (hx : x ∈ l) : x ≤ listMax l := by
  cases l with
  | nil => simp at hx
  | cons a t => exact foldl_le_max t a x hx

/-! ### Correctness of the range recomputation -/

theorem updateRange_rangeSpec (st : GlobalStore)
    (h1 : st.instances = [] → st.points = [])
    (h2 : st.instances ≠ [] → st.points ≠ []) :
    rangeSpec (updateRange st) := by
  unfold updateRange
  by_cases hi : st.instances = []
  · simp only [if_pos hi, rangeSpec]
    exact h1 hi
  · simp only [if_neg hi, rangeSpec]
    have hp := h2 hi
    have hk : mapKeys st.points ≠ [] := by
      simpa [mapKeys] using hp
    exact ⟨hp, listMin_mem _ hk, listMax_mem _ hk,
      fun k hkm => ⟨listMin_le _ k hkm, le_listMax _ k hkm⟩⟩

/-! ### Generic XML state machine runs -/

theorem string_nil_append (s : String) : "" ++ s = s := rfl

theorem runEvents_append {α : Type} (cfg : XMLParserConfig α) (l1 l2 : List XMLEvent) :
    ∀ ps : PState α,
      runEvents cfg ps (l1 ++ l2) =
        match runEvents cfg ps l1 with
        | .ok ps1 => runEvents cfg ps1 l2
        | .error err => .error err := by
  induction l1 with
  | nil => intro ps; simp [runEvents]
  | cons e t ih =>
    intro ps
    simp only [List.cons_append, runEvents]
    cases stepEvent cfg ps e with
    | ok ps1 => exact ih ps1
    | error err => rfl

theorem kmlEnd_swap (tg w c : String) (acc : TrackMap) :
    kmlEnd tg [("coordinates", c), ("when", w)] acc
      = kmlEnd tg [("when", w), ("coordinates", c)] acc := by
  simp [kmlEnd, alistGet]

theorem kmlPlacemark_run (tr el : Option String) (stt : List (String × String))
    (acc : TrackMap) (w c : String) (o : Bool) :
    runEvents kmlConfig ⟨.betweenElements, tr, el, stt, acc⟩ (kmlPlacemarkEvents w c o)
      = .ok ⟨.betweenElements, none, none, [], kmlRecEffect w c acc⟩ := by
  cases o <;> by_cases hw : isBlank w <;> by_cases hc : isBlank c <;>
    simp [kmlPlacemarkEvents, kmlWhenEvents, kmlCoordEvents, runEvents, stepEvent,
      appendField, alistGet, kmlRecEffect, kmlRecordState, kmlConfig, kmlEnd_swap,
      hw, hc, string_nil_append, alistInsert]

theorem kmlBody_run (recs : List (String × String)) (o : Bool) :
    ∀ (tr el : Option String) (stt : List (String × String)) (acc : TrackMap),
      ∃ ps1 : PState TrackMap,
        runEvents kmlConfig ⟨.betweenElements, tr, el, stt, acc⟩ (kmlBodyEvents recs o)
          = .ok ps1
        ∧ ps1.acc = recs.foldl (fun a r => kmlRecEffect r.1 r.2 a) acc := by
  induction recs with
  | nil =>
    intro tr el stt acc
    exact ⟨⟨.betweenElements, tr, el, stt, acc⟩, rfl, rfl⟩
  | cons r t ih =>
    intro tr el stt acc
    have hb : kmlBodyEvents (r :: t) o
        = kmlPlacemarkEvents r.1 r.2 o ++ kmlBodyEvents t o := rfl
    obtain ⟨ps1, h1, h2⟩ := ih none none [] (kmlRecEffect r.1 r.2 acc)
    refine ⟨ps1, ?_, ?_⟩
    · rw [hb, runEvents_append, kmlPlacemark_run]
      exact h1
    · rw [h2]
      simp [List.foldl_cons]

theorem kml_parse_eq_foldl (recs : List (String × String)) (o : Bool) :
    parseXML kmlConfig (.ok (kmlDocEvents recs o)) []
      = .ok (recs.foldl (fun a r => kmlRecEffect r.1 r.2 a) []) := by
  obtain ⟨ps1, h1, h2⟩ := kmlBody_run recs o none none [] []
  have h0 : stepEvent kmlConfig (initPState []) (.startTag "kml" [])
      = .ok ⟨.betweenElements, none, none, [], []⟩ := by
    simp [stepEvent, initPState, kmlConfig]
  simp only [parseXML, kmlDocEvents, runEvents, h0, h1, h2]

theorem gpxTrkpt_run (tr el : Option String) (stt : List (String × String))
    (acc : TrackMap) (r : GpxRec) :
    runEvents gpxConfig ⟨.betweenElements, tr, el, stt, acc⟩ (gpxTrkptEvents r)
      = .ok ⟨.betweenElements, none, none, [], gpxRecEffect r acc⟩ := by
  by_cases he : isBlank r.ele <;> by_cases ht : isBlank r.time <;>
    simp [gpxTrkptEvents, runEvents, stepEvent, appendField, alistGet,
      gpxRecEffect, gpxRecordState, gpxConfig, he, ht, string_nil_append, alistInsert]

theorem gpxBody_run (recs : List GpxRec) :
    ∀ (tr el : Option String) (stt : List (String × String)) (acc : TrackMap),
      ∃ ps1 : PState TrackMap,
        runEvents gpxConfig ⟨.betweenElements, tr, el, stt, acc⟩ (gpxBodyEvents recs)
          = .ok ps1
        ∧ ps1.acc = recs.foldl (fun a r => gpxRecEffect r a) acc := by
  induction recs with
  | nil =>
    intro tr el stt acc
    exact ⟨⟨.betweenElements, tr, el, stt, acc⟩, rfl, rfl⟩
  | cons r t ih =>
    intro tr el stt acc
    have hb : gpxBodyEvents (r :: t) = gpxTrkptEvents r ++ gpxBodyEvents t := rfl
    obtain ⟨ps1, h1, h2⟩ := ih none none [] (gpxRecEffect r acc)
    refine ⟨ps1, ?_, ?_⟩
    · rw [hb, runEvents_append, gpxTrkpt_run]
      exact h1
    · rw [h2]
      simp [List.foldl_cons]

theorem gpx_parse_eq_foldl (recs : List GpxRec) :
    parseXML gpxConfig (.ok (gpxDocEvents recs)) []
      = .ok (recs.foldl (fun a r => gpxRecEffect r a) []) := by
  obtain ⟨ps1, h1, h2⟩ := gpxBody_run recs none none [] []
  have h0 : stepEvent gpxConfig (initPState []) (.startTag "gpx" [])
      = .ok ⟨.betweenElements, none, none, [], []⟩ := by
    simp [stepEvent, initPState, gpxConfig]
  simp only [parseXML, gpxDocEvents, runEvents, h0, h1, h2]

/-! ### Record effect characterisation -/

theorem parseDecimal_blank (s : String) (h : isBlank s) : parseDecimal s = none := by
  have h2 : strTrimList s.toList = [] := by
    simpa [isBlank, List.isEmpty_iff] using h
  unfold parseDecimal
  rw [h2]
  rfl

theorem parseISO8601_blank (s : String) (h : isBlank s) : parseISO8601 s = none := by
  have h2 : strTrimList s.toList = [] := by
    simpa [isBlank, List.isEmpty_iff] using h
  unfold parseISO8601
  rw [h2]
  rfl

theorem gpxRecordState_lat (r : GpxRec) :
    alistGet (gpxRecordState r) "lat" = some r.lat := by
  by_cases he : isBlank r.ele <;> by_cases ht : isBlank r.time <;>
    simp [gpxRecordState, alistGet, he, ht]

theorem gpxRecordState_lon (r : GpxRec) :
    alistGet (gpxRecordState r) "lon" = some r.lon := by
  by_cases he : isBlank r.ele <;> by_cases ht : isBlank r.time <;>
    simp [gpxRecordState, alistGet, he, ht]

theorem gpxRecordState_time (r : GpxRec) :
    (alistGet (gpxRecordState r) "time").bind parseISO8601 = parseISO8601 r.time := by
  by_cases he : isBlank r.ele <;> by_cases ht : isBlank r.time <;>
    simp [gpxRecordState, alistGet, he, ht, parseISO8601_blank]

theorem gpxRecordState_ele (r : GpxRec) :
    parseEle (alistGet (gpxRecordState r) "ele") = (parseDecimal r.ele).getD 0 := by
  by_cases he : isBlank r.ele <;> by_cases ht : isBlank r.time <;>
    simp [gpxRecordState, alistGet, he, ht, parseEle, parseDecimal_blank]

theorem gpxRecEffect_eq (r : GpxRec) (acc : TrackMap) :
    gpxRecEffect r acc =
      match parseDecimal r.lat, parseDecimal r.lon, parseISO8601 r.time with
      | some la, some lo, some t1 =>
        alistInsert acc t1 ⟨la, lo, (parseDecimal r.ele).getD 0⟩
      | _, _, _ => acc := by
  unfold gpxRecEffect gpxEnd
  rw [gpxRecordState_time, gpxRecordState_ele, gpxRecordState_lat, gpxRecordState_lon]
  simp [Option.bind]

theorem gpxRecEffect_invalid (r : GpxRec) (h : gpxRecValid r = false) (acc : TrackMap) :
    gpxRecEffect r acc = acc := by
  rw [gpxRecEffect_eq]
  rcases hla : parseDecimal r.lat with _ | la <;>
    rcases hlo : parseDecimal r.lon with _ | lo <;>
      rcases hti : parseISO8601 r.time with _ | t1 <;>
        simp [gpxRecValid, hla, hlo, hti] at h ⊢

theorem foldl_filter_id {β α : Type} (f : β → α → β) (p : α → Bool) (l : List α)
    (h : ∀ a, p a = false → ∀ b, f b a = b) :
    ∀ b : β, l.foldl f b = (l.filter p).foldl f b := by
  induction l with
  | nil => intro b; rfl
  | cons a t ih =>
    intro b
    by_cases hp : p a
    · simp [List.filter_cons, hp, List.foldl_cons, ih]
    · have hb := h a (by simpa using hp)
      simp [List.filter_cons, hp, List.foldl_cons, ih, hb]

theorem csv_foldl_ne_nil (lines : List String) :
    ∀ m : TrackMap, (m ≠ [] ∨ ∃ l ∈ lines, (parseRow l).isSome) →
      lines.foldl csvInsertRow m ≠ [] := by
  induction lines with
  | nil =>
    intro m h
    rcases h with h | ⟨l, hl, _⟩
    · simpa using h
    · simp at hl
  | cons a t ih =>
    intro m h
    simp only [List.foldl_cons]
    rcases hrow : parseRow a with _ | v
    · refine ih _ ?_
      rcases h with h | ⟨l, hl, hs⟩
      · left; simpa [csvInsertRow, hrow] using h
      · rcases List.mem_cons.mp hl with rfl | hl2
        · rw [hrow] at hs; simp at hs
        · right; exact ⟨l, hl2, hs⟩
    · refine ih _ (Or.inl ?_)
      simpa [csvInsertRow, hrow] using alistInsert_ne_nil m v.1 v.2

/-! ### Global Track Store machinery -/

theorem updateRange_instances (st : GlobalStore) :
    (updateRange st).instances = st.instances := by
  unfold updateRange
  split <;> rfl

theorem updateRange_points (st : GlobalStore) :
    (updateRange st).points = st.points := by
  unfold updateRange
  split <;> rfl

theorem updateRange_range_nil (st : GlobalStore) (h : st.instances = []) :
    (updateRange st).range = [] := by
  simp [updateRange, h]

theorem updateRange_range_cons (st : GlobalStore) (h : st.instances ≠ []) :
    (updateRange st).range = [listMin (mapKeys st.points), listMax (mapKeys st.points)] := by
  simp [updateRange, h]

theorem trackFileNew_eq_ok (f : InputFile) (tks : TrackMap)
    (h : parseFile f = .ok tks) (hne : tks ≠ []) :
    trackFileNew f = .ok ⟨f.name, tks⟩ := by
  simp [trackFileNew, h, hne]

theorem trackFileNew_ok_dest (f : InputFile) (tf : TrackFile)
    (h : trackFileNew f = .ok tf) :
    parseFile f = .ok tf.tracks ∧ tf.tracks ≠ [] ∧ tf.filename = f.name := by
  unfold trackFileNew at h
  rcases hp : parseFile f with e | tks
  · rw [hp] at h
    simp at h
  · rw [hp] at h
    have h1 : (if tks = [] then (Except.error ⟨"No points found"⟩ : Except FormatError TrackFile)
        else .ok ⟨f.name, tks⟩) = .ok tf := h
    by_cases hne : tks = []
    · rw [if_pos hne] at h1
      simp at h1
    · rw [if_neg hne] at h1
      have h2 : (⟨f.name, tks⟩ : TrackFile) = tf := by
        injection h1
      subst h2
      exact ⟨rfl, hne, rfl⟩

theorem loadFromFile_error (st : GlobalStore) (f : InputFile) (e : FormatError)
    (h : trackFileNew f = .error e) : loadFromFile st f = (st, [], some e) := by
  simp [loadFromFile, h]

theorem loadFromFile_ok (st : GlobalStore) (f : InputFile) (tf : TrackFile)
    (h : trackFileNew f = .ok tf) :
    loadFromFile st f =
      if 1 < tf.tracks.length then
        (updateRange ⟨st.instances ++ [tf], alistUpdate st.points tf.tracks, st.range⟩,
          [.realize, .setZoomLevel, .ensureVisible], none)
      else
        (⟨st.instances ++ [tf], alistUpdate st.points tf.tracks, st.range⟩, [], none) := by
  simp only [loadFromFile, h]

theorem storeInv_empty : StoreInv emptyStore :=
  ⟨rfl, by simp [emptyStore], fun _ => rfl⟩

theorem storeInv_load (st : GlobalStore) (f : InputFile) (h : StoreInv st)
    (hok : (loadFromFile st f).2.2 = none) : StoreInv (loadFromFile st f).1 := by
  rcases htf : trackFileNew f with e | tf
  · rw [loadFromFile_error st f e htf] at hok
    simp at hok
  · obtain ⟨hp, hne, hname⟩ := trackFileNew_ok_dest f tf htf
    rw [loadFromFile_ok st f tf htf]
    have hpts : alistUpdate st.points tf.tracks = unionTracks (st.instances ++ [tf]) := by
      rw [unionTracks_append_single, h.pointsEq]
    have htrk : ∀ tf2 ∈ st.instances ++ [tf], tf2.tracks ≠ [] := by
      intro tf2 htf2
      rcases List.mem_append.mp htf2 with h2 | h2
      · exact h.tracksNe tf2 h2
      · rw [List.mem_singleton.mp h2]
        exact hne
    by_cases hlen : 1 < tf.tracks.length
    · rw [if_pos hlen]
      refine ⟨?_, ?_, ?_⟩
      · rw [updateRange_points, updateRange_instances]
        exact hpts
      · rw [updateRange_instances]
        exact htrk
      · rw [updateRange_instances]
        intro hnil
        simp at hnil
    · rw [if_neg hlen]
      refine ⟨hpts, htrk, ?_⟩
      intro hnil
      simp at hnil

theorem storeInv_destroy (st : GlobalStore) (n : String) (h : StoreInv st) :
    StoreInv (destroyFile st n) := by
  unfold destroyFile
  refine ⟨?_, ?_, ?_⟩
  · rw [updateRange_points, updateRange_instances]
  · rw [updateRange_instances]
    intro tf htf
    exact h.tracksNe tf (List.mem_of_mem_filter htf)
  · rw [updateRange_instances]
    intro hrem
    exact updateRange_range_nil _ hrem

theorem destroyFile_instances (st : GlobalStore) (n : String) :
    (destroyFile st n).instances = st.instances.filter (fun tf => tf.filename != n) := by
  unfold destroyFile
  rw [updateRange_instances]

theorem destroy_foldl_instances (l : List TrackFile) :
    ∀ st : GlobalStore,
      (l.foldl (fun s tf => destroyFile s tf.filename) st).instances
        = st.instances.filter
            (fun tf => !(l.map TrackFile.filename).contains tf.filename) := by
  induction l with
  | nil => intro st; simp
  | cons a t ih =>
    intro st
    rw [List.foldl_cons, ih, destroyFile_instances, List.filter_filter]
    congr 1
    funext tf
    simp only [List.map_cons, List.contains_cons, Bool.not_or, bne]
    cases hb : tf.filename == a.filename <;>
      cases hc : (t.map TrackFile.filename).contains tf.filename <;> rfl

theorem storeInv_foldl_destroy (l : List TrackFile) :
    ∀ st : GlobalStore, StoreInv st →
      StoreInv (l.foldl (fun s tf => destroyFile s tf.filename) st) := by
  induction l with
  | nil => intro st h; exact h
  | cons a t ih =>
    intro st h
    exact ih _ (storeInv_destroy st a.filename h)

theorem clearAll_eq (st : GlobalStore) (h : StoreInv st) : clearAll st = emptyStore := by
  have hins : (st.instances.foldl (fun s tf => destroyFile s tf.filename) st).instances
      = [] := by
    rw [destroy_foldl_instances]
    apply List.filter_eq_nil_iff.mpr
    intro tf htf
    have hmem : tf.filename ∈ st.instances.map TrackFile.filename :=
      List.mem_map_of_mem TrackFile.filename htf
    simp [hmem]
  have hinv := storeInv_foldl_destroy st.instances st h
  have hrg := hinv.emptyRange hins
  unfold clearAll
  dsimp only
  rw [hins, hrg]
  rfl

theorem storeInv_clear (st : GlobalStore) (h : StoreInv st) : StoreInv (clearAll st) := by
  rw [clearAll_eq st h]
  exact storeInv_empty

theorem reachable_inv (st : GlobalStore) (h : Reachable st) : StoreInv st := by
  induction h with
  | init => exact storeInv_empty
  | load st2 f h2 hok ih => exact storeInv_load st2 f ih hok
  | remove st2 n h2 ih => exact storeInv_destroy st2 n ih
  | clear st2 h2 ih => exact storeInv_clear st2 ih

/-! ### Claim theorems -/

/-- C1: for every supported dialect, parsing a well-formed file produces a
timeline whose size, timestamps and per-timestamp coordinate triples match
ground truth exactly; in particular the minimal three-point GPX file yields
exactly timestamps 1287259751, 1287259753 and 1287259755 with coordinates
(53.52263, -113.448979, 671.666), (53.522731, -113.448985, 671.092) and
(53.52283, -113.448985, 671.307), and modelled well-formed TCX, KML and CSV
files likewise yield exactly their ground-truth fixes. -/
theorem gpx_minimal_groundtruth :
    parseFile minimalGpxFile = .ok minimalGpxTracks
    ∧ parseFile sampleTcxFile = .ok sampleTcxTracks
    ∧ parseFile sampleKmlFile = .ok sampleKmlTracks
    ∧ parseFile minimalCsvFile = .ok minimalCsvTracks := by
  exact ⟨by decide, by decide, by decide, by decide⟩

/-- C2 counterexample: loading a successfully parsed single-point GPX file
into the empty Global Track Store is a mutation after which the merged
points mapping is nonempty while the range is still empty, so the claimed
invariant fails after this file-add mutation. -/
theorem range_invariant_cx :
    (loadFromFile emptyStore onePtGpxFile).2.2 = none
    ∧ (loadFromFile emptyStore onePtGpxFile).1.points ≠ []
    ∧ (loadFromFile emptyStore onePtGpxFile).1.range = [] := by
  decide

/-- C2 (amended): after every range-recomputing mutation of a reachable
Global Track Store - a file add contributing at least two points, any file
removal, and clear-all - the range is empty iff the merged points mapping
is empty, and otherwise holds a genuine minimum and maximum of the stored
keys.  A file add contributing exactly one point skips the recomputation
and can leave the previous range value stale. -/
theorem range_invariant_after_recompute (st : GlobalStore) (h : Reachable st) :
    (∀ (f : InputFile) (tks : TrackMap), parseFile f = .ok tks → 2 ≤ tks.length →
        rangeSpec (loadFromFile st f).1)
    ∧ (∀ n : String, rangeSpec (destroyFile st n))
    ∧ rangeSpec (clearAll st) := by
  have hinv := reachable_inv st h
  refine ⟨?_, ?_, ?_⟩
  · intro f tks hp hlen
    have hne : tks ≠ [] := by
      intro hnil
      rw [hnil] at hlen
      simp at hlen
    have htf := trackFileNew_eq_ok f tks hp hne
    rw [loadFromFile_ok st f ⟨f.name, tks⟩ htf]
    rw [if_pos (by simpa using hlen)]
    apply updateRange_rangeSpec
    · intro hnil
      simp at hnil
    · intro _
      exact alistUpdate_ne_nil_right st.points tks hne
  · intro n
    unfold destroyFile
    apply updateRange_rangeSpec
    · intro hrem
      dsimp at hrem ⊢
      rw [hrem]
      rfl
    · intro hrem
      dsimp at hrem ⊢
      refine unionTracks_ne_nil _ hrem ?_
      intro tf htf
      exact hinv.tracksNe tf (List.mem_of_mem_filter htf)
  · rw [clearAll_eq st hinv]
    exact rfl

/-- C2 witness: the amended invariant at a concrete reachable store, after
loading the minimal GPX file and then performing a removal. -/
theorem range_invariant_after_recompute_witness :
    rangeSpec (destroyFile (loadFromFile emptyStore minimalGpxFile).1 "nofile.gpx") :=
  (range_invariant_after_recompute (loadFromFile emptyStore minimalGpxFile).1
    (Reachable.load emptyStore minimalGpxFile Reachable.init (by decide))).2.1 "nofile.gpx"

/-- C10: when a successfully constructed TrackFile holds fewer than two
points, loading it registers the file and merges its points but emits no
map-view action and leaves the range untouched; the view update and the
range recomputation happen exactly when the file contributes at least two
points. -/
theorem single_point_load_skips_view_update (st : GlobalStore) (f : InputFile)
    (tf : TrackFile) (h : trackFileNew f = .ok tf) :
    (tf.tracks.length < 2 →
      loadFromFile st f
        = (⟨st.instances ++ [tf], alistUpdate st.points tf.tracks, st.range⟩, [], none))
    ∧ (2 ≤ tf.tracks.length →
      loadFromFile st f
        = (updateRange ⟨st.instances ++ [tf], alistUpdate st.points tf.tracks, st.range⟩,
            [.realize, .setZoomLevel, .ensureVisible], none)) := by
  rw [loadFromFile_ok st f tf h]
  constructor
  · intro hl
    rw [if_neg (by omega)]
  · intro hl
    rw [if_pos (by omega)]

/-- C10 witness: loading the concrete one-point GPX file registers it and
merges its single fix with no view action and no range recomputation. -/
theorem single_point_load_skips_view_update_witness :
    loadFromFile emptyStore onePtGpxFile
      = (⟨emptyStore.instances ++ [⟨"one.gpx", onePtTracks⟩],
          alistUpdate emptyStore.points onePtTracks, emptyStore.range⟩, [], none) :=
  (single_point_load_skips_view_update emptyStore onePtGpxFile ⟨"one.gpx", onePtTracks⟩
    (by decide)).1 (by decide)

theorem load_ok_components (st : GlobalStore) (f : InputFile) (tf : TrackFile)
    (h : trackFileNew f = .ok tf) :
    (loadFromFile st f).1.instances = st.instances ++ [tf]
    ∧ (loadFromFile st f).1.points = alistUpdate st.points tf.tracks := by
  rw [loadFromFile_ok st f tf h]
  by_cases hl : 1 < tf.tracks.length
  · rw [if_pos hl]
    exact ⟨updateRange_instances _, updateRange_points _⟩
  · rw [if_neg hl]
    exact ⟨rfl, rfl⟩

/-- C3 counterexample: the zero-records failure carries the message
No points found with a capital N, as test_trackfile_init_first_no_points
pins, and that message does not contain the claimed lowercase string
no points found; the store is nevertheless left unchanged. -/
theorem formaterror_message_case_cx :
    strHasSub "No points found" "no points found" = false
    ∧ (loadFromFile emptyStore emptyGpxFile).2.2 = some ⟨"No points found"⟩
    ∧ (loadFromFile emptyStore emptyGpxFile).1 = emptyStore := by
  decide

/-- C3 (amended): each of the four file-level failure conditions raises a
FormatError - unsupported extension, wrong root element, tokenizer syntax
failure (wrapping the original diagnostic), and zero usable records after a
complete parse, the last with the message No points found as the code
capitalises it - and each failure is fatal only to that single load,
returning with the Global Track Store unchanged and no view action. -/
theorem file_level_failures_formaterror :
    (∀ (st : GlobalStore) (f : InputFile),
        extOf f.name ∉ (["gpx", "tcx", "kml", "csv"] : List String) →
        loadFromFile st f = (st, [], some ⟨"unsupported format"⟩))
    ∧ (∀ (st : GlobalStore) (nm : String) (cfg : XMLParserConfig TrackMap)
          (r : String) (attrs : List (String × String)) (rest : List XMLEvent),
        xmlConfigFor (extOf nm) = some cfg → r ≠ cfg.rootname →
        loadFromFile st ⟨nm, .xml (.ok (.startTag r attrs :: rest))⟩
          = (st, [], some ⟨"unexpected root element"⟩))
    ∧ (∀ (st : GlobalStore) (nm diag : String) (cfg : XMLParserConfig TrackMap),
        xmlConfigFor (extOf nm) = some cfg →
        loadFromFile st ⟨nm, .xml (.error diag)⟩
          = (st, [], some ⟨"could not parse file: " ++ diag⟩))
    ∧ (∀ (st : GlobalStore) (f : InputFile), parseFile f = .ok [] →
        loadFromFile st f = (st, [], some ⟨"No points found"⟩)) := by
  refine ⟨?_, ?_, ?_, ?_⟩
  · intro st f hext
    rcases f with ⟨nm, co⟩
    simp only [List.mem_cons, List.mem_singleton, not_or] at hext
    obtain ⟨h1, h2, h3, h4⟩ := hext
    have hnone : xmlConfigFor (extOf nm) = none := by
      simp [xmlConfigFor, h1, h2, h3]
    cases co with
    | xml tok => simp [loadFromFile, trackFileNew, parseFile, hnone]
    | csv lines => simp [loadFromFile, trackFileNew, parseFile, h4]
  · intro st nm cfg r attrs rest hcfg hr
    have hrun : parseXML cfg (.ok (.startTag r attrs :: rest)) ([] : TrackMap)
        = .error ⟨"unexpected root element"⟩ := by
      simp [parseXML, runEvents, stepEvent, initPState, hr]
    simp [loadFromFile, trackFileNew, parseFile, hcfg, hrun]
  · intro st nm diag cfg hcfg
    simp [loadFromFile, trackFileNew, parseFile, hcfg, parseXML]
  · intro st f hp
    simp [loadFromFile, trackFileNew, hp]

/-- C3 witness: the four failure conditions at concrete inputs, each
leaving the concrete store untouched. -/
theorem file_level_failures_formaterror_witness :
    loadFromFile emptyStore ⟨"foo.unsupported", .csv []⟩
      = (emptyStore, [], some ⟨"unsupported format"⟩)
    ∧ loadFromFile emptyStore ⟨"wrongroot.gpx", .xml (.ok [.startTag "kml" [], .endTag "kml"])⟩
      = (emptyStore, [], some ⟨"unexpected root element"⟩)
    ∧ loadFromFile emptyStore ⟨"truncated.kml", .xml (.error "junk after document element")⟩
      = (emptyStore, [], some ⟨"could not parse file: " ++ "junk after document element"⟩)
    ∧ loadFromFile emptyStore emptyGpxFile = (emptyStore, [], some ⟨"No points found"⟩) :=
  ⟨file_level_failures_formaterror.1 emptyStore ⟨"foo.unsupported", .csv []⟩ (by decide),
   file_level_failures_formaterror.2.1 emptyStore "wrongroot.gpx" gpxConfig "kml" []
     [.endTag "kml"] rfl (by decide),
   file_level_failures_formaterror.2.2.1 emptyStore "truncated.kml"
     "junk after document element" kmlConfig rfl,
   file_level_failures_formaterror.2.2.2 emptyStore emptyGpxFile (by decide)⟩

/-- C4: destroying a TrackFile re-merges from all still-live files, so the
resulting keys are exactly the keys contributed by the remaining files
(colliding keys another live file also contributed are preserved);
consequently loading file A, then file B, then destroying B leaves the
store holding exactly the timeline of A and the range of A, and destroying
the remaining file empties the store, the range and the registry. -/
theorem destroy_removes_exactly_own_keys (st : GlobalStore) (n : String) (k : Nat)
    (fa fb : InputFile) (ma mb : TrackMap)
    (ha : parseFile fa = .ok ma) (hane : ma ≠ [])
    (hb : parseFile fb = .ok mb) (hbne : mb ≠ [])
    (hname : fa.name ≠ fb.name) :
    (k ∈ mapKeys (destroyFile st n).points ↔
        ∃ tf ∈ st.instances, tf.filename ≠ n ∧ k ∈ mapKeys tf.tracks)
    ∧ (destroyFile (loadFromFile (loadFromFile emptyStore fa).1 fb).1 fb.name).points
        = (loadFromFile emptyStore fa).1.points
    ∧ (destroyFile (loadFromFile (loadFromFile emptyStore fa).1 fb).1 fb.name).range
        = [listMin (mapKeys (alistUpdate [] ma)), listMax (mapKeys (alistUpdate [] ma))]
    ∧ destroyFile (destroyFile (loadFromFile (loadFromFile emptyStore fa).1 fb).1 fb.name)
        fa.name = emptyStore := by
  have htfa := trackFileNew_eq_ok fa ma ha hane
  have htfb := trackFileNew_eq_ok fb mb hb hbne
  obtain ⟨hs1i, hs1p⟩ := load_ok_components emptyStore fa ⟨fa.name, ma⟩ htfa
  obtain ⟨hs2i, hs2p⟩ :=
    load_ok_components (loadFromFile emptyStore fa).1 fb ⟨fb.name, mb⟩ htfb
  have hs2i2 : (loadFromFile (loadFromFile emptyStore fa).1 fb).1.instances
      = [⟨fa.name, ma⟩, ⟨fb.name, mb⟩] := by
    rw [hs2i, hs1i]
    rfl
  have hba : ((⟨fa.name, ma⟩ : TrackFile).filename != fb.name) = true := by
    simpa [bne_iff_ne] using hname
  have hfilter : ([⟨fa.name, ma⟩, ⟨fb.name, mb⟩] : List TrackFile).filter
      (fun tf => tf.filename != fb.name) = [⟨fa.name, ma⟩] := by
    simp [List.filter_cons, hba]
  have hdest : destroyFile (loadFromFile (loadFromFile emptyStore fa).1 fb).1 fb.name
      = updateRange
          ⟨[⟨fa.name, ma⟩], unionTracks [⟨fa.name, ma⟩],
            (loadFromFile (loadFromFile emptyStore fa).1 fb).1.range⟩ := by
    unfold destroyFile
    rw [hs2i2, hfilter]
  refine ⟨?_, ?_, ?_, ?_⟩
  · unfold destroyFile
    rw [updateRange_points]
    dsimp only
    rw [mem_keys_unionTracks]
    constructor
    · rintro ⟨tf, htf, hk⟩
      have hm := List.mem_filter.mp htf
      exact ⟨tf, hm.1, by simpa [bne_iff_ne] using hm.2, hk⟩
    · rintro ⟨tf, htf, hne2, hk⟩
      exact ⟨tf, List.mem_filter.mpr ⟨htf, by simpa [bne_iff_ne] using hne2⟩, hk⟩
  · rw [hdest, updateRange_points, hs1p]
    rfl
  · rw [hdest, updateRange_range_cons _ (by simp)]
    rfl
  · rw [hdest]
    unfold destroyFile
    rw [updateRange_instances]
    dsimp only
    have hf2 : ([⟨fa.name, ma⟩] : List TrackFile).filter
        (fun tf => tf.filename != fa.name) = [] := by
      simp [List.filter_cons]
    rw [hf2]
    rfl

/-- C4 witness: after loading the minimal GPX file and the two-point CSV
file, destroying the CSV file restores exactly the points held after
loading the GPX file alone. -/
theorem destroy_removes_exactly_own_keys_witness :
    (destroyFile (loadFromFile (loadFromFile emptyStore minimalGpxFile).1 twoPtCsvFile).1
        twoPtCsvFile.name).points
      = (loadFromFile emptyStore minimalGpxFile).1.points :=
  (destroy_removes_exactly_own_keys emptyStore "z.gpx" 0 minimalGpxFile twoPtCsvFile
    minimalGpxTracks twoCsvTracks (by decide) (by decide) (by decide) (by decide)
    (by decide)).2.1

/-- C5 counterexample: entering the watched element foo with the attribute
mapping bar=grill leaves the parser state equal to that attribute mapping,
which is not the empty mapping the claim asserts
(test_xmlsimpleparser_element_start_watching pins this). -/
theorem watched_start_state_cx :
    (stepEvent recConfig demoBetweenState (.startTag "foo" [("bar", "grill")])).map
        PState.state
      = .ok [("bar", "grill")]
    ∧ (stepEvent recConfig demoBetweenState (.startTag "foo" [("bar", "grill")])).map
        PState.state
      ≠ .ok [] := by
  decide

/-- C5 (amended): on a start tag whose name is in the watch-list, the
parser invokes on_start with the tag and attributes, sets tracking and
element to the tag name, and initialises its accumulated state to the
attribute mapping of that tag (empty exactly when the tag carries no
attributes); that state, as later extended by character data, is handed to
the end-callback when the matching end tag arrives. -/
theorem watched_start_sets_state_to_attrs {α : Type} (cfg : XMLParserConfig α)
    (ps : PState α) (nm : String) (attrs : List (String × String))
    (hm : ps.mode = .betweenElements) (hw : nm ∈ cfg.watchlist) :
    stepEvent cfg ps (.startTag nm attrs)
      = .ok ⟨.insideWatched, some nm, some nm, attrs, cfg.call_start nm attrs ps.acc⟩
    ∧ ∀ (stt : List (String × String)) (a : α),
        stepEvent cfg ⟨.insideWatched, some nm, some nm, stt, a⟩ (.endTag nm)
          = .ok ⟨.betweenElements, none, none, [], cfg.call_end nm stt a⟩ := by
  constructor
  · simp [stepEvent, hm, hw]
  · intro stt a
    simp [stepEvent]

/-- C5 witness: the amended start and end behaviour at the concrete
recording configuration and the concrete watched tag foo. -/
theorem watched_start_sets_state_to_attrs_witness :
    stepEvent recConfig demoBetweenState (.startTag "foo" [("bar", "grill")])
      = .ok ⟨.insideWatched, some "foo", some "foo", [("bar", "grill")],
          recConfig.call_start "foo" [("bar", "grill")] demoBetweenState.acc⟩
    ∧ ∀ (stt : List (String × String)) (a : List String),
        stepEvent recConfig ⟨.insideWatched, some "foo", some "foo", stt, a⟩ (.endTag "foo")
          = .ok ⟨.betweenElements, none, none, [], recConfig.call_end "foo" stt a⟩ :=
  watched_start_sets_state_to_attrs recConfig demoBetweenState "foo" [("bar", "grill")]
    rfl (by decide)

/-- C9: inside a watched element, a pure-whitespace chunk is dropped
without touching the state or creating a key, and two nonblank chunks
delivered for the same innermost element are concatenated in delivery
order into one field value, which the end-callback receives when the
matching end tag arrives. -/
theorem chardata_chunked_append {α : Type} (cfg : XMLParserConfig α) (ps : PState α)
    (e : String) (d1 d2 : String) (hm : ps.mode = .insideWatched)
    (he : ps.element = some e) (h0 : alistGet ps.state e = none)
    (h1 : isBlank d1 = false) (h2 : isBlank d2 = false) :
    (∀ d, isBlank d = true → stepEvent cfg ps (.charData d) = .ok ps)
    ∧ ∃ ps1 ps2 : PState α,
        stepEvent cfg ps (.charData d1) = .ok ps1
        ∧ stepEvent cfg ps1 (.charData d2) = .ok ps2
        ∧ alistGet ps2.state e = some (d1 ++ d2)
        ∧ ∀ tg, ps.tracking = some tg →
            stepEvent cfg ps2 (.endTag tg)
              = .ok ⟨.betweenElements, none, none, [], cfg.call_end tg ps2.state ps2.acc⟩ := by
  have hinner : appendField ps.state e d1 = alistInsert ps.state e d1 := by
    rw [appendField, h0]
    simp [string_nil_append]
  have houter : appendField (alistInsert ps.state e d1) e d2
      = alistInsert (alistInsert ps.state e d1) e (d1 ++ d2) := by
    rw [appendField, alistGet_insert_self]
    rfl
  refine ⟨?_, { ps with state := appendField ps.state e d1 },
    { ps with state := appendField (appendField ps.state e d1) e d2 }, ?_, ?_, ?_, ?_⟩
  · intro d hd
    simp [stepEvent, hm, hd]
  · simp [stepEvent, hm, he, h1]
  · simp [stepEvent, hm, he, h1, h2]
  · rw [hinner, houter, alistGet_insert_self]
  · intro tg htg
    simp [stepEvent, hm, htg]

/-- C9 witness: two concrete chunks delivered for the nested neon element
concatenate in delivery order, and whitespace is dropped, at the concrete
recording configuration. -/
theorem chardata_chunked_append_witness :
    (∀ d, isBlank d = true →
        stepEvent recConfig demoInsideState (.charData d) = .ok demoInsideState)
    ∧ ∃ ps1 ps2 : PState (List String),
        stepEvent recConfig demoInsideState (.charData "atomic ") = .ok ps1
        ∧ stepEvent recConfig ps1 (.charData "number: 10") = .ok ps2
        ∧ alistGet ps2.state "neon" = some ("atomic " ++ "number: 10")
        ∧ ∀ tg, demoInsideState.tracking = some tg →
            stepEvent recConfig ps2 (.endTag tg)
              = .ok ⟨.betweenElements, none, none, [],
                  recConfig.call_end tg ps2.state ps2.acc⟩ :=
  chardata_chunked_append recConfig demoInsideState "neon" "atomic " "number: 10"
    rfl rfl rfl (by decide) (by decide)

/-- C6: a KML document whose when and coordinates sibling leaves appear in
the non-canonical (disordered) order parses to a timeline identical to that
of the canonically ordered equivalent document, for every list of
records. -/
theorem kml_order_independence (recs : List (String × String)) :
    parseXML kmlConfig (.ok (kmlDocEvents recs true)) []
      = parseXML kmlConfig (.ok (kmlDocEvents recs false)) [] := by
  rw [kml_parse_eq_foldl, kml_parse_eq_foldl]

/-- C7: CSV parsing skips each structurally invalid row individually and
produces exactly the valid rows records, succeeding with a nonempty
timeline and no error whenever at least one row is valid; analogously a
GPX document containing invalid records parses to exactly the timeline of
its counterpart with the invalid records removed. -/
theorem invalid_rows_skipped :
    (∀ lines : List String,
        parseCSV lines = parseCSV (lines.filter (fun l => (parseRow l).isSome)))
    ∧ (∀ (lines : List String) (nm : String), extOf nm = "csv" →
        (∃ l ∈ lines, (parseRow l).isSome) →
        trackFileNew ⟨nm, .csv lines⟩ = .ok ⟨nm, parseCSV lines⟩ ∧ parseCSV lines ≠ [])
    ∧ (∀ recs : List GpxRec,
        parseXML gpxConfig (.ok (gpxDocEvents recs)) []
          = parseXML gpxConfig (.ok (gpxDocEvents (recs.filter gpxRecValid))) []) := by
  have hid : ∀ l, (parseRow l).isSome = false → ∀ m : TrackMap, csvInsertRow m l = m := by
    intro l hl m
    rcases hrow : parseRow l with _ | v
    · simp [csvInsertRow, hrow]
    · rw [hrow] at hl
      simp at hl
  refine ⟨?_, ?_, ?_⟩
  · intro lines
    exact foldl_filter_id csvInsertRow (fun l => (parseRow l).isSome) lines hid []
  · intro lines nm hext hex
    have hne : parseCSV lines ≠ [] := csv_foldl_ne_nil lines [] (Or.inr hex)
    have hp : parseFile ⟨nm, .csv lines⟩ = .ok (parseCSV lines) := by
      simp [parseFile, hext]
    exact ⟨trackFileNew_eq_ok _ _ hp hne, hne⟩
  · intro recs
    rw [gpx_parse_eq_foldl, gpx_parse_eq_foldl]
    congr 1
    exact foldl_filter_id (fun a r => gpxRecEffect r a) gpxRecValid recs
      (fun r hr b => gpxRecEffect_invalid r hr b) []

/-- C7 witness: a concrete CSV file mixing two invalid and two valid rows
loads successfully with a nonempty timeline holding the valid rows. -/
theorem invalid_rows_skipped_witness :
    trackFileNew
        ⟨"invalid.csv", .csv ["garbage line", "100,1.0,2.0", "also,bad", "200,3.0,4.0"]⟩
      = .ok ⟨"invalid.csv", parseCSV ["garbage line", "100,1.0,2.0", "also,bad", "200,3.0,4.0"]⟩
    ∧ parseCSV ["garbage line", "100,1.0,2.0", "also,bad", "200,3.0,4.0"] ≠ [] :=
  invalid_rows_skipped.2.1 ["garbage line", "100,1.0,2.0", "also,bad", "200,3.0,4.0"]
    "invalid.csv" (by decide) ⟨"100,1.0,2.0", by decide, by decide⟩

/-- C8: a record is never dropped or failed over a missing or unparsable
elevation: a three-field CSV row (no altitude column) always yields ele 0,
a GPX trkpt with unparsable elevation text is still inserted with ele 0, a
TCX Trackpoint with absent or unparsable AltitudeMeters is still inserted
with ele 0, a KML coordinates payload whose third field does not parse
yields ele 0, and appending a point with a non-numeric elevation string
yields a coordinate with ele 0. -/
theorem elevation_defaults_to_zero :
    (∀ (line t la lo : String) (p : Nat × Coordinate),
        splitComma line = [t, la, lo] → parseRow line = some p → p.2.ele = 0)
    ∧ (∀ (r : GpxRec) (acc : TrackMap) (la lo : DecNum) (t1 : Nat),
        parseDecimal r.lat = some la → parseDecimal r.lon = some lo →
        parseISO8601 r.time = some t1 → parseDecimal r.ele = none →
        gpxRecEffect r acc = alistInsert acc t1 ⟨la, lo, 0⟩)
    ∧ (∀ (stt : List (String × String)) (acc : TrackMap) (la lo : DecNum) (t1 : Nat),
        (alistGet stt "LatitudeDegrees").bind parseDecimal = some la →
        (alistGet stt "LongitudeDegrees").bind parseDecimal = some lo →
        (alistGet stt "Time").bind parseISO8601 = some t1 →
        (alistGet stt "AltitudeMeters").bind parseDecimal = none →
        tcxEnd "Trackpoint" stt acc = alistInsert acc t1 ⟨la, lo, 0⟩)
    ∧ (∀ (c lon lat ele : String) (lo la : DecNum),
        splitComma c = [lon, lat, ele] → parseDecimal lon = some lo →
        parseDecimal lat = some la → parseDecimal ele = none →
        splitCoordinates c = some (lo, la, 0))
    ∧ (∀ (la lo : DecNum) (s : String), parseDecimal s = none →
        appendPoint la lo s = ⟨la, lo, 0⟩) := by
  refine ⟨?_, ?_, ?_, ?_, ?_⟩
  · intro line t la lo p hsplit hp
    unfold parseRow at hp
    rw [hsplit] at hp
    dsimp only at hp
    rcases h1 : parseNat t with _ | ts
    · rw [h1] at hp
      simp at hp
    · rw [h1] at hp
      rcases h2 : parseDecimal la with _ | lav
      · rw [h2] at hp
        simp at hp
      · rw [h2] at hp
        rcases h3 : parseDecimal lo with _ | lov
        · rw [h3] at hp
          simp at hp
        · rw [h3] at hp
          cases Option.some.inj hp
          rfl
  · intro r acc la lo t1 hla hlo hti hele
    rw [gpxRecEffect_eq, hla, hlo, hti, hele]
    rfl
  · intro stt acc la lo t1 h1 h2 h3 h4
    unfold tcxEnd
    rw [h1, h2, h3]
    simp [parseEle, h4]
  · intro c lon lat ele lo la hsplit hlon hlat hele
    unfold splitCoordinates
    rw [hsplit]
    dsimp only
    rw [hlon, hlat, hele]
    rfl
  · intro la lo s h
    simp [appendPoint, h]

/-- C8 witness: the five elevation-default behaviours at concrete inputs,
each producing the record with elevation 0. -/
theorem elevation_defaults_to_zero_witness :
    ((77, ⟨1.5, 2.5, 0⟩) : Nat × Coordinate).2.ele = 0
    ∧ gpxRecEffect ⟨"1.5", "2.5", "five", "2010-10-16T20:09:11Z"⟩ []
        = alistInsert [] 1287259751 ⟨1.5, 2.5, 0⟩
    ∧ tcxEnd "Trackpoint"
        [("LatitudeDegrees", "1.5"), ("LongitudeDegrees", "2.5"),
         ("Time", "2010-10-16T20:09:11Z")] []
        = alistInsert [] 1287259751 ⟨1.5, 2.5, 0⟩
    ∧ splitCoordinates "2.5,1.5,bogus" = some (2.5, 1.5, 0)
    ∧ appendPoint 1 2 "five" = ⟨1, 2, 0⟩ :=
  ⟨elevation_defaults_to_zero.1 "77,1.5,2.5" "77" "1.5" "2.5" (77, ⟨1.5, 2.5, 0⟩)
      (by decide) (by decide),
   elevation_defaults_to_zero.2.1 ⟨"1.5", "2.5", "five", "2010-10-16T20:09:11Z"⟩ []
      1.5 2.5 1287259751 (by decide) (by decide) (by decide) (by decide),
   elevation_defaults_to_zero.2.2.1
      [("LatitudeDegrees", "1.5"), ("LongitudeDegrees", "2.5"),
       ("Time", "2010-10-16T20:09:11Z")] [] 1.5 2.5 1287259751
      (by decide) (by decide) (by decide) (by decide),
   elevation_defaults_to_zero.2.2.2.1 "2.5,1.5,bogus" "2.5" "1.5" "bogus" 2.5 1.5
      (by decide) (by decide) (by decide) (by decide),
   elevation_defaults_to_zero.2.2.2.2 1 2 "five" (by decide)⟩
